import Mathlib

/-
Verification of the aerotrace data-model layer (src/aerotrace/models/engine.py):
CylinderReading, CylinderReadings and EngineData, embedded shallowly.

Python floats are modelled as exact extended rationals together with a NaN
tag: every claim under study depends only on order comparisons (exact in
IEEE 754 on represented values), on the special values inf, -inf, nan, and on
subtractions whose exactness the claims do not exercise beyond x - x and the
spec examples, so the rational model is faithful for these claims.
-/

/-- model of a Python float payload: a finite (exact) value, the two
infinities, or nan. -/
inductive PyFloat where
  | fin (q : ℚ)
  | inf
  | ninf
  | nan
deriving DecidableEq, Repr

/-- model of the Python runtime values that can be supplied as the `value`
argument of CylinderReading: numbers (int, bool, float), and representative
non-numeric values (text, None). -/
inductive PyValue where
  | int (n : ℤ)
  | bool (b : Bool)
  | float (f : PyFloat)
  | str (s : String)
  | none
deriving DecidableEq, Repr

/-- extended number line on which Python orders its numeric values:
rationals with -inf as bottom and +inf as top. -/
abbrev ENum := WithBot (WithTop ℚ)

/-- coercion of a rational into the extended number line. -/
def qe (q : ℚ) : ENum := ((q : WithTop ℚ) : ENum)

/-- position of a Python value on the extended number line, used by the
comparison operators; nan is unordered and non-numbers do not compare, both
map to Option.none.  bool is a subclass of int in Python: True counts as 1,
False as 0. -/
def numKey : PyValue → Option ENum
  | .int n => some (qe (n : ℚ))
  | .bool b => some (qe (cond b 1 0))
  | .float (.fin q) => some (qe q)
  | .float .inf => some ((⊤ : WithTop ℚ) : ENum)
  | .float .ninf => some (⊥ : ENum)
  | _ => Option.none

/-- Python `a < b` on stored reading values: false whenever either side is
nan (IEEE comparison semantics). -/
def pyLt (a b : PyValue) : Bool :=
  match numKey a, numKey b with
  | some x, some y => decide (x < y)
  | _, _ => false

/-- Python `a > b` on stored reading values. -/
def pyGt (a b : PyValue) : Bool :=
  match numKey a, numKey b with
  | some x, some y => decide (y < x)
  | _, _ => false

/-- Python `a >= b` on stored reading values: false whenever either side is
nan. -/
def pyGe (a b : PyValue) : Bool :=
  match numKey a, numKey b with
  | some x, some y => decide (y ≤ x)
  | _, _ => false

/-- Python `a <= b` on stored reading values. -/
def pyLe (a b : PyValue) : Bool :=
  match numKey a, numKey b with
  | some x, some y => decide (x ≤ y)
  | _, _ => false

/-- isinstance(value, (int, float)) as used by CylinderReading.__post_init__;
bool is a subclass of int in Python, so booleans pass the check. -/
def isNumeric : PyValue → Bool
  | .int _ => true
  | .bool _ => true
  | .float _ => true
  | _ => false

/-- a numeric value that is finite: an int, a bool, or a finite float. -/
def isFiniteNum : PyValue → Bool
  | .int _ => true
  | .bool _ => true
  | .float (.fin _) => true
  | _ => false

/-- embeds the dataclass CylinderReading: the fields as stored after a
successful construction (source field names `number` and `value`). -/
structure CylinderReading where
  number : ℤ
  value : PyValue
deriving DecidableEq, Repr

/-- the two ValueError kinds raised by CylinderReading.__post_init__. -/
inductive ValidationError where
  | invalidCylinderNumber
  | nonNumericValue
deriving DecidableEq, Repr

/-- embeds dataclass construction of CylinderReading including
__post_init__: first the cylinder-number check (number < 1), then the
isinstance numeric check on value; on success both fields are stored
unchanged. -/
def mkCylinderReading (number : ℤ) (value : PyValue) :
    Except ValidationError CylinderReading :=
  if number < 1 then .error .invalidCylinderNumber
  else if !(isNumeric value) then .error .nonNumericValue
  else .ok ⟨number, value⟩

/-- embeds the CylinderReadings collection; the single field embeds the
source attribute `_readings`. -/
structure CylinderReadings where
  readings : List CylinderReading
deriving DecidableEq, Repr

/-- the IndexError raised by out-of-range list subscripting. -/
inductive IndexErr where
  | indexError
deriving DecidableEq, Repr

/-- embeds CylinderReadings.__len__. -/
def CylinderReadings.length (c : CylinderReadings) : ℕ :=
  c.readings.length

/-- embeds CylinderReadings.__getitem__ for integer indices (the spec's
`at`): CPython list subscripting, where a negative index is first offset by
the list length and an index still out of range raises IndexError. -/
def CylinderReadings.getitem (c : CylinderReadings) (i : ℤ) :
    Except IndexErr CylinderReading :=
  if h : 0 ≤ i ∧ i < (c.readings.length : ℤ) then
    .ok (c.readings.get ⟨i.toNat, by omega⟩)
  else if h2 : 0 ≤ i + (c.readings.length : ℤ) ∧ i < 0 then
    .ok (c.readings.get ⟨(i + (c.readings.length : ℤ)).toNat, by omega⟩)
  else .error .indexError

/-- CPython max(iterable, key=...) and min(iterable, key=...) share this
shape: keep the current best and replace it exactly when cmp accepts the
candidate against the best (for max, cmp is `key(x) > key(best)`; for min,
`key(x) < key(best)`). -/
def pyBestBy (cmp : CylinderReading → CylinderReading → Bool) :
    CylinderReading → List CylinderReading → CylinderReading
  | best, [] => best
  | best, x :: xs => pyBestBy cmp (if cmp x best then x else best) xs

/-- embeds CylinderReadings.get_hottest: None on the empty collection,
otherwise max(self._readings, key=lambda x: x.value). -/
def CylinderReadings.get_hottest (c : CylinderReadings) :
    Option CylinderReading :=
  match c.readings with
  | [] => Option.none
  | r :: rs => some (pyBestBy (fun x b => pyGt x.value b.value) r rs)

/-- embeds CylinderReadings.get_coolest: None on the empty collection,
otherwise min(self._readings, key=lambda x: x.value). -/
def CylinderReadings.get_coolest (c : CylinderReadings) :
    Option CylinderReading :=
  match c.readings with
  | [] => Option.none
  | r :: rs => some (pyBestBy (fun x b => pyLt x.value b.value) r rs)

/-- Python subtraction on the two float payloads: exact on finite values;
inf - inf and (-inf) - (-inf) are nan, and nan propagates. -/
def PyFloat.sub : PyFloat → PyFloat → PyFloat
  | .nan, _ => .nan
  | _, .nan => .nan
  | .fin a, .fin b => .fin (a - b)
  | .fin _, .inf => .ninf
  | .fin _, .ninf => .inf
  | .inf, .fin _ => .inf
  | .inf, .inf => .nan
  | .inf, .ninf => .inf
  | .ninf, .fin _ => .ninf
  | .ninf, .inf => .ninf
  | .ninf, .ninf => .nan

/-- view of an int/bool value as a Python int (bool is a subclass of int). -/
def pyToInt : PyValue → Option ℤ
  | .int n => some n
  | .bool b => some (cond b 1 0)
  | _ => Option.none

/-- view of a numeric value as a Python float. -/
def pyToFloat : PyValue → Option PyFloat
  | .int n => some (.fin (n : ℚ))
  | .bool b => some (.fin (cond b 1 0))
  | .float f => some f
  | _ => Option.none

/-- Python numeric subtraction a - b on stored reading values: int-like
minus int-like stays an int, any float operand gives a float; Option.none
stands for the TypeError a non-numeric operand would raise. -/
def pySubVal (a b : PyValue) : Option PyValue :=
  match pyToInt a, pyToInt b with
  | some m, some n => some (.int (m - n))
  | _, _ =>
    match pyToFloat a, pyToFloat b with
    | some f, some g => some (.float (f.sub g))
    | _, _ => Option.none

/-- embeds CylinderReadings.get_difference: hottest.value - coolest.value
when both queries return a reading (dataclass instances are truthy in
Python, so `if hottest and coolest` holds exactly when neither is None),
None otherwise. -/
def CylinderReadings.get_difference (c : CylinderReadings) :
    Option PyValue :=
  match c.get_hottest, c.get_coolest with
  | some h, some l => pySubVal h.value l.value
  | _, _ => Option.none

/-- embeds the dataclass EngineData: every scalar channel is
Optional[float] with default None, and the two cylinder collections default
to empty CylinderReadings (source field order preserved). -/
structure EngineData where
  rpm : Option PyFloat := Option.none
  manifold_pressure : Option PyFloat := Option.none
  egts : CylinderReadings := ⟨[]⟩
  chts : CylinderReadings := ⟨[]⟩
  oil_pressure : Option PyFloat := Option.none
  oil_temperature : Option PyFloat := Option.none
  fuel_pressure : Option PyFloat := Option.none
  volts : Option PyFloat := Option.none
  amps : Option PyFloat := Option.none
  g_force : Option PyFloat := Option.none
deriving DecidableEq, Repr

/-- embeds the zero-argument call EngineData(): every default applies. -/
def EngineData.pyDefault : EngineData := {}

/-- key of a reading on the extended number line; values the order does not
compare (nan) take the default, which the lemmas below never rely on. -/
def nkey (r : CylinderReading) : ENum :=
  (numKey r.value).getD ⊥

/-- on readings whose values the numeric order compares, Python `>` on the
values is the strict comparison of their keys. -/
theorem pyGt_eq_decide (x y : CylinderReading)
    (hx : (numKey x.value).isSome = true)
    (hy : (numKey y.value).isSome = true) :
    pyGt x.value y.value = decide (nkey y < nkey x) := by
  obtain ⟨a, ha⟩ := Option.isSome_iff_exists.mp hx
  obtain ⟨b, hb⟩ := Option.isSome_iff_exists.mp hy
  simp [pyGt, nkey, ha, hb]

/-- on readings whose values the numeric order compares, Python `<` on the
values is the strict comparison of their keys. -/
theorem pyLt_eq_decide (x y : CylinderReading)
    (hx : (numKey x.value).isSome = true)
    (hy : (numKey y.value).isSome = true) :
    pyLt x.value y.value = decide (nkey x < nkey y) := by
  obtain ⟨a, ha⟩ := Option.isSome_iff_exists.mp hx
  obtain ⟨b, hb⟩ := Option.isSome_iff_exists.mp hy
  simp [pyLt, nkey, ha, hb]

/-- on readings whose values the numeric order compares, Python `>=` on the
values is the comparison of their keys. -/
theorem pyGe_eq_decide (x y : CylinderReading)
    (hx : (numKey x.value).isSome = true)
    (hy : (numKey y.value).isSome = true) :
    pyGe x.value y.value = decide (nkey y ≤ nkey x) := by
  obtain ⟨a, ha⟩ := Option.isSome_iff_exists.mp hx
  obtain ⟨b, hb⟩ := Option.isSome_iff_exists.mp hy
  simp [pyGe, nkey, ha, hb]

/-- on readings whose values the numeric order compares, Python `<=` on the
values is the comparison of their keys. -/
theorem pyLe_eq_decide (x y : CylinderReading)
    (hx : (numKey x.value).isSome = true)
    (hy : (numKey y.value).isSome = true) :
    pyLe x.value y.value = decide (nkey x ≤ nkey y) := by
  obtain ⟨a, ha⟩ := Option.isSome_iff_exists.mp hx
  obtain ⟨b, hb⟩ := Option.isSome_iff_exists.mp hy
  simp [pyLe, nkey, ha, hb]

/-- the CPython best-fold returns an element of the traversed sequence. -/
theorem pyBestBy_mem (cmp : CylinderReading → CylinderReading → Bool) :
    ∀ (xs : List CylinderReading) (b : CylinderReading),
      pyBestBy cmp b xs ∈ b :: xs := by
  intro xs
  induction xs with
  | nil => intro b; simp [pyBestBy]
  | cons x xs ih =>
    intro b
    show pyBestBy cmp (if cmp x b then x else b) xs ∈ b :: x :: xs
    by_cases hxb : cmp x b = true
    · rw [if_pos hxb]
      exact List.mem_cons_of_mem b (ih x)
    · rw [if_neg hxb]
      rcases List.mem_cons.mp (ih b) with h | h
      · rw [h]; exact List.mem_cons_self _ _
      · exact List.mem_cons_of_mem b (List.mem_cons_of_mem x h)

/-- first-occurrence characterization of the CPython best-fold: when cmp is
the strict comparison of keys in a linear order on all elements involved,
the traversed sequence splits around the result so that every earlier
element has a strictly smaller key and every later element a key at most as
large — the fold picks the first element with the maximal key. -/
theorem pyBestBy_split {β : Type} [LinearOrder β] (k : CylinderReading → β)
    (cmp : CylinderReading → CylinderReading → Bool) :
    ∀ (xs : List CylinderReading) (b : CylinderReading),
      (∀ x ∈ b :: xs, ∀ y ∈ b :: xs, cmp x y = decide (k y < k x)) →
      ∃ l1 l2, b :: xs = l1 ++ (pyBestBy cmp b xs) :: l2 ∧
        (∀ y ∈ l1, k y < k (pyBestBy cmp b xs)) ∧
        (∀ y ∈ l2, k y ≤ k (pyBestBy cmp b xs)) := by
  intro xs
  induction xs with
  | nil =>
    intro b _
    exact ⟨[], [], rfl, by simp, by simp⟩
  | cons x xs ih =>
    intro b hcmp
    have hred : pyBestBy cmp b (x :: xs) =
        pyBestBy cmp (if cmp x b then x else b) xs := rfl
    by_cases hxb : cmp x b = true
    · have hkb : k b < k x := by
        have hx := hcmp x (List.mem_cons_of_mem b (List.mem_cons_self x xs))
          b (List.mem_cons_self b (x :: xs))
        rw [hx] at hxb
        exact of_decide_eq_true hxb
      have hsub : ∀ p ∈ x :: xs, ∀ q ∈ x :: xs, cmp p q = decide (k q < k p) := by
        intro p hp q hq
        exact hcmp p (List.mem_cons_of_mem b hp) q (List.mem_cons_of_mem b hq)
      obtain ⟨l1, l2, heq, h1, h2⟩ := ih x hsub
      rw [hred, if_pos hxb]
      have hxm : k x ≤ k (pyBestBy cmp x xs) := by
        cases l1 with
        | nil =>
          have : x = pyBestBy cmp x xs := by
            simpa using congrArg (fun l => l.head?) heq
          rw [← this]
        | cons a l1t =>
          have hx_l1 : x = a := by
            simpa using congrArg (fun l => l.head?) heq
          exact le_of_lt (hx_l1 ▸ h1 a (List.mem_cons_self a l1t))
      refine ⟨b :: l1, l2, ?_, ?_, h2⟩
      · rw [List.cons_append, ← heq]
      · intro y hy
        rcases List.mem_cons.mp hy with hyb | hyl
        · exact hyb ▸ lt_of_lt_of_le hkb hxm
        · exact h1 y hyl
    · have hkx : k x ≤ k b := by
        have hx := hcmp x (List.mem_cons_of_mem b (List.mem_cons_self x xs))
          b (List.mem_cons_self b (x :: xs))
        rw [hx] at hxb
        exact le_of_not_lt (of_decide_eq_false (Bool.not_eq_true _ ▸
          eq_false_of_ne_true hxb))
      have hsub : ∀ p ∈ b :: xs, ∀ q ∈ b :: xs, cmp p q = decide (k q < k p) := by
        intro p hp q hq
        rcases List.mem_cons.mp hp with hp1 | hp2 <;>
          rcases List.mem_cons.mp hq with hq1 | hq2
        · exact hcmp p (hp1 ▸ List.mem_cons_self b (x :: xs))
            q (hq1 ▸ List.mem_cons_self b (x :: xs))
        · exact hcmp p (hp1 ▸ List.mem_cons_self b (x :: xs))
            q (List.mem_cons_of_mem b (List.mem_cons_of_mem x hq2))
        · exact hcmp p (List.mem_cons_of_mem b (List.mem_cons_of_mem x hp2))
            q (hq1 ▸ List.mem_cons_self b (x :: xs))
        · exact hcmp p (List.mem_cons_of_mem b (List.mem_cons_of_mem x hp2))
            q (List.mem_cons_of_mem b (List.mem_cons_of_mem x hq2))
      obtain ⟨l1, l2, heq, h1, h2⟩ := ih b hsub
      rw [hred, if_neg hxb]
      cases l1 with
      | nil =>
        have hbm : b = pyBestBy cmp b xs := by
          simpa using congrArg (fun l => l.head?) heq
        have hxs : xs = l2 := by
          simpa using congrArg (fun l => l.tail) heq
        refine ⟨[], x :: l2, ?_, by simp, ?_⟩
        · rw [List.nil_append, ← hbm, hxs]
        · intro y hy
          rcases List.mem_cons.mp hy with hyx | hyl
          · exact hyx ▸ (hbm ▸ hkx)
          · exact h2 y hyl
      | cons a l1t =>
        have hba : b = a := by
          simpa using congrArg (fun l => l.head?) heq
        have hxs : xs = l1t ++ pyBestBy cmp b xs :: l2 := by
          simpa using congrArg (fun l => l.tail) heq
        have hbm : k b < k (pyBestBy cmp b xs) :=
          hba ▸ h1 a (List.mem_cons_self a l1t)
        refine ⟨b :: x :: l1t, l2, ?_, ?_, h2⟩
        · simp only [List.cons_append]
          conv_lhs => rw [hxs]
        · intro y hy
          rcases List.mem_cons.mp hy with hyb | hy2
          · exact hyb ▸ hbm
          · rcases List.mem_cons.mp hy2 with hyx | hyl
            · exact hyx ▸ lt_of_le_of_lt hkx hbm
            · exact h1 y (hba ▸ List.mem_cons_of_mem a hyl)
/-- C1 (amended): over readings whose values the numeric order compares (no
nan), get_hottest returns None exactly on the empty collection, and
otherwise a contained reading whose value is >= every stored value and such
that every strictly earlier reading has a strictly smaller value — the
first reading with the maximum value; with nan present the result follows
the CPython max fold and need not hold a maximum value. -/
theorem get_hottest_spec (c : CylinderReadings)
    (h : ∀ r ∈ c.readings, (numKey r.value).isSome = true) :
    (c.get_hottest = Option.none ↔ c.readings = []) ∧
    ∀ m, c.get_hottest = some m →
      (∀ y ∈ c.readings, pyGe m.value y.value = true) ∧
      ∃ l1 l2, c.readings = l1 ++ m :: l2 ∧
        ∀ y ∈ l1, pyGt m.value y.value = true := by
  obtain ⟨l⟩ := c
  cases l with
  | nil =>
    constructor
    · simp [CylinderReadings.get_hottest]
    · intro m hm
      simp [CylinderReadings.get_hottest] at hm
  | cons r rs =>
    have h' : ∀ x ∈ r :: rs, (numKey x.value).isSome = true := h
    have hcmp : ∀ x ∈ r :: rs, ∀ y ∈ r :: rs,
        (fun x b => pyGt x.value b.value) x y = decide (nkey y < nkey x) := by
      intro x hx y hy
      exact pyGt_eq_decide x y (h' x hx) (h' y hy)
    obtain ⟨l1, l2, heq, h1, h2⟩ := pyBestBy_split nkey _ rs r hcmp
    constructor
    · simp [CylinderReadings.get_hottest]
    · intro m hm
      have hm' : pyBestBy (fun x b => pyGt x.value b.value) r rs = m :=
        Option.some.inj hm
      subst hm'
      have hMmem : pyBestBy (fun x b => pyGt x.value b.value) r rs ∈ r :: rs := by
        rw [heq]
        exact List.mem_append_right _ (List.mem_cons_self _ _)
      constructor
      · intro y hy
        have hy' : y ∈ l1 ++ pyBestBy (fun x b => pyGt x.value b.value) r rs :: l2 := by
          rw [← heq]; exact hy
        have hle : nkey y ≤ nkey (pyBestBy (fun x b => pyGt x.value b.value) r rs) := by
          rcases List.mem_append.mp hy' with hin | hin
          · exact le_of_lt (h1 y hin)
          · rcases List.mem_cons.mp hin with hin1 | hin2
            · exact le_of_eq (congrArg nkey hin1)
            · exact h2 y hin2
        rw [pyGe_eq_decide _ y (h' _ hMmem) (h' y hy)]
        exact decide_eq_true hle
      · refine ⟨l1, l2, heq, ?_⟩
        intro y hy
        have hymem : y ∈ r :: rs := by
          rw [heq]; exact List.mem_append_left _ hy
        rw [pyGt_eq_decide _ y (h' _ hMmem) (h' y hymem)]
        exact decide_eq_true (h1 y hy)

/-- C1 counterexample: float nan passes validation; CPython max starts at
the nan reading and every later `>` comparison against nan is false, so
get_hottest returns the nan reading, whose value is not >= the stored value
7.0 — it is not a reading holding the maximum value. -/
theorem get_hottest_nan_counterexample :
    mkCylinderReading 1 (.float .nan) = .ok ⟨1, .float .nan⟩ ∧
    mkCylinderReading 2 (.float (.fin 7)) = .ok ⟨2, .float (.fin 7)⟩ ∧
    (CylinderReadings.mk [⟨1, .float .nan⟩, ⟨2, .float (.fin 7)⟩]).get_hottest
      = some ⟨1, .float .nan⟩ ∧
    pyGe (PyValue.float .nan) (PyValue.float (.fin 7)) = false :=
  ⟨rfl, rfl, by decide, by decide⟩

/-- C1 witness: on a concrete tie the first maximum (number 2) is returned
and its value compares >= an earlier stored value. -/
theorem get_hottest_spec_witness :
    (CylinderReadings.mk [⟨1, .int 1⟩, ⟨2, .int 3⟩, ⟨3, .int 3⟩]).get_hottest
        = some ⟨2, .int 3⟩ ∧
    pyGe (PyValue.int 3) (PyValue.int 1) = true := by
  have hs := get_hottest_spec ⟨[⟨1, .int 1⟩, ⟨2, .int 3⟩, ⟨3, .int 3⟩]⟩ (by decide)
  exact ⟨by decide, (hs.2 ⟨2, .int 3⟩ (by decide)).1 ⟨1, .int 1⟩ (by decide)⟩

/-- C5 (amended): over readings whose values the numeric order compares (no
nan), get_coolest returns None exactly on the empty collection, and
otherwise a contained reading whose value is <= every stored value and such
that every strictly earlier reading has a strictly larger value — the
first reading with the minimum value; with nan present the result follows
the CPython min fold and need not hold a minimum value. -/
theorem get_coolest_spec (c : CylinderReadings)
    (h : ∀ r ∈ c.readings, (numKey r.value).isSome = true) :
    (c.get_coolest = Option.none ↔ c.readings = []) ∧
    ∀ m, c.get_coolest = some m →
      (∀ y ∈ c.readings, pyLe m.value y.value = true) ∧
      ∃ l1 l2, c.readings = l1 ++ m :: l2 ∧
        ∀ y ∈ l1, pyLt m.value y.value = true := by
  obtain ⟨l⟩ := c
  cases l with
  | nil =>
    constructor
    · simp [CylinderReadings.get_coolest]
    · intro m hm
      simp [CylinderReadings.get_coolest] at hm
  | cons r rs =>
    have h' : ∀ x ∈ r :: rs, (numKey x.value).isSome = true := h
    have hcmp : ∀ x ∈ r :: rs, ∀ y ∈ r :: rs,
        (fun x b => pyLt x.value b.value) x y =
          decide (OrderDual.toDual (nkey y) < OrderDual.toDual (nkey x)) := by
      intro x hx y hy
      show pyLt x.value y.value = _
      rw [pyLt_eq_decide x y (h' x hx) (h' y hy)]
      exact decide_eq_decide.mpr (OrderDual.toDual_lt_toDual).symm
    obtain ⟨l1, l2, heq, h1, h2⟩ :=
      pyBestBy_split (fun t => OrderDual.toDual (nkey t)) _ rs r hcmp
    constructor
    · simp [CylinderReadings.get_coolest]
    · intro m hm
      have hm' : pyBestBy (fun x b => pyLt x.value b.value) r rs = m :=
        Option.some.inj hm
      subst hm'
      have hMmem : pyBestBy (fun x b => pyLt x.value b.value) r rs ∈ r :: rs := by
        rw [heq]
        exact List.mem_append_right _ (List.mem_cons_self _ _)
      constructor
      · intro y hy
        have hy' : y ∈ l1 ++ pyBestBy (fun x b => pyLt x.value b.value) r rs :: l2 := by
          rw [← heq]; exact hy
        have hle : nkey (pyBestBy (fun x b => pyLt x.value b.value) r rs) ≤ nkey y := by
          rcases List.mem_append.mp hy' with hin | hin
          · exact le_of_lt (OrderDual.toDual_lt_toDual.mp (h1 y hin))
          · rcases List.mem_cons.mp hin with hin1 | hin2
            · exact le_of_eq (congrArg nkey hin1.symm)
            · exact OrderDual.toDual_le_toDual.mp (h2 y hin2)
        rw [pyLe_eq_decide _ y (h' _ hMmem) (h' y hy)]
        exact decide_eq_true hle
      · refine ⟨l1, l2, heq, ?_⟩
        intro y hy
        have hymem : y ∈ r :: rs := by
          rw [heq]; exact List.mem_append_left _ hy
        rw [pyLt_eq_decide _ y (h' _ hMmem) (h' y hymem)]
        exact decide_eq_true (OrderDual.toDual_lt_toDual.mp (h1 y hy))

/-- C5 counterexample: float nan passes validation; CPython min starts at
the nan reading and every later `<` comparison against nan is false, so
get_coolest returns the nan reading, whose value is not <= the stored value
7.0 — it is not a reading holding the minimum value. -/
theorem get_coolest_nan_counterexample :
    mkCylinderReading 1 (.float .nan) = .ok ⟨1, .float .nan⟩ ∧
    (CylinderReadings.mk [⟨1, .float .nan⟩, ⟨2, .float (.fin 7)⟩]).get_coolest
      = some ⟨1, .float .nan⟩ ∧
    pyLe (PyValue.float .nan) (PyValue.float (.fin 7)) = false :=
  ⟨rfl, by decide, by decide⟩

/-- C5 witness: on a concrete tie the first minimum (number 1) is returned
and its value compares <= a later stored value. -/
theorem get_coolest_spec_witness :
    (CylinderReadings.mk [⟨1, .int 2⟩, ⟨2, .int 2⟩, ⟨3, .int 5⟩]).get_coolest
        = some ⟨1, .int 2⟩ ∧
    pyLe (PyValue.int 2) (PyValue.int 5) = true := by
  have hs := get_coolest_spec ⟨[⟨1, .int 2⟩, ⟨2, .int 2⟩, ⟨3, .int 5⟩]⟩ (by decide)
  exact ⟨by decide, (hs.2 ⟨1, .int 2⟩ (by decide)).1 ⟨3, .int 5⟩ (by decide)⟩
/-- Python subtraction of two numeric values (int, bool or float, nan and
infinities included) always produces a value. -/
theorem pySubVal_isSome (a b : PyValue) (ha : isNumeric a = true)
    (hb : isNumeric b = true) : ∃ w, pySubVal a b = some w := by
  cases a <;> cases b <;>
    simp_all [pySubVal, pyToInt, pyToFloat, isNumeric]

/-- Python subtraction of a finite numeric value from itself is numerically
zero (an int 0 or a float 0.0). -/
theorem pySubVal_self_zero (v : PyValue) (h : isFiniteNum v = true) :
    ∃ w, pySubVal v v = some w ∧ numKey w = some (qe 0) := by
  match v, h with
  | .int n, _ =>
    exact ⟨.int (n - n), rfl, by simp [numKey, sub_self]⟩
  | .bool b, _ =>
    exact ⟨.int (cond b 1 0 - cond b 1 0), rfl, by simp [numKey, sub_self]⟩
  | .float (.fin q), _ =>
    exact ⟨.float (.fin (q - q)), rfl, by simp [numKey, sub_self]⟩

/-- C4 (amended): over validated (numeric-valued) readings, get_difference
returns None exactly on the empty collection; on a non-empty collection it
returns the Python subtraction hottest.value - coolest.value; a
single-element collection yields a value numerically equal to zero when its
value is finite (a non-finite single value gives nan, since inf - inf and
nan - nan are nan). -/
theorem get_difference_spec (c : CylinderReadings)
    (h : ∀ r ∈ c.readings, isNumeric r.value = true) :
    (c.get_difference = Option.none ↔ c.readings = []) ∧
    (∀ hr cr, c.get_hottest = some hr → c.get_coolest = some cr →
      c.get_difference = pySubVal hr.value cr.value) ∧
    (∀ r, c.readings = [r] → isFiniteNum r.value = true →
      ∃ w, c.get_difference = some w ∧ numKey w = some (qe 0)) := by
  obtain ⟨l⟩ := c
  cases l with
  | nil =>
    refine ⟨by simp [CylinderReadings.get_difference, CylinderReadings.get_hottest,
      CylinderReadings.get_coolest], ?_, ?_⟩
    · intro hr cr h1 _
      simp [CylinderReadings.get_hottest] at h1
    · intro r hr
      simp at hr
  | cons r rs =>
    have hMh : ({ readings := r :: rs } : CylinderReadings).get_hottest
        = some (pyBestBy (fun x b => pyGt x.value b.value) r rs) := rfl
    have hMc : ({ readings := r :: rs } : CylinderReadings).get_coolest
        = some (pyBestBy (fun x b => pyLt x.value b.value) r rs) := rfl
    have hhm := pyBestBy_mem (fun x b => pyGt x.value b.value) rs r
    have hcm := pyBestBy_mem (fun x b => pyLt x.value b.value) rs r
    obtain ⟨w, hw⟩ := pySubVal_isSome _ _ (h _ hhm) (h _ hcm)
    have hdiff : ({ readings := r :: rs } : CylinderReadings).get_difference
        = pySubVal (pyBestBy (fun x b => pyGt x.value b.value) r rs).value
            (pyBestBy (fun x b => pyLt x.value b.value) r rs).value := rfl
    refine ⟨?_, ?_, ?_⟩
    · rw [hdiff, hw]
      simp
    · intro hr cr h1 h2
      rw [hMh] at h1
      rw [hMc] at h2
      rw [hdiff, ← Option.some.inj h1, ← Option.some.inj h2]
    · intro r0 hr0 hfin
      injection hr0 with e1 e2
      subst e2
      subst e1
      exact pySubVal_self_zero r.value hfin

/-- C4 counterexample: a single reading with value inf is accepted by
validation, and get_difference then returns inf - inf = nan, not 0.0 (nan
is not numerically zero, it does not even compare equal to itself). -/
theorem get_difference_inf_counterexample :
    mkCylinderReading 1 (.float .inf) = .ok ⟨1, .float .inf⟩ ∧
    (CylinderReadings.mk [⟨1, .float .inf⟩]).get_difference
      = some (.float .nan) ∧
    numKey (.float .nan) = Option.none :=
  ⟨rfl, rfl, rfl⟩

/-- C4 witness: a concrete one-element collection with a finite value gives
a difference numerically equal to zero. -/
theorem get_difference_spec_witness :
    ∃ w, (CylinderReadings.mk [⟨1, .int 5⟩]).get_difference = some w ∧
      numKey w = some (qe 0) :=
  (get_difference_spec ⟨[⟨1, .int 5⟩]⟩ (by decide)).2.2 ⟨1, .int 5⟩ rfl (by decide)
/-- C2 (amended): indexing raises IndexError exactly when the index is below
-length or at least length; an index in [0, length) returns the stored
element at that position, and a negative index in [-length, 0) returns the
stored element at position length + index (Python negative-index
semantics), not an error. -/
theorem getitem_spec (c : CylinderReadings) (i : ℤ) :
    (c.getitem i = .error .indexError ↔
      (i < -(c.length : ℤ) ∨ (c.length : ℤ) ≤ i)) ∧
    (0 ≤ i → i < (c.length : ℤ) →
      ∀ r, c.readings[i.toNat]? = some r → c.getitem i = .ok r) ∧
    (-(c.length : ℤ) ≤ i → i < 0 →
      ∀ r, c.readings[(i + (c.length : ℤ)).toNat]? = some r →
        c.getitem i = .ok r) := by
  simp only [CylinderReadings.length]
  refine ⟨⟨?_, ?_⟩, ?_, ?_⟩
  · intro he
    by_contra hcon
    push_neg at hcon
    obtain ⟨h1, h2⟩ := hcon
    unfold CylinderReadings.getitem at he
    by_cases hc : 0 ≤ i ∧ i < (c.readings.length : ℤ)
    · rw [dif_pos hc] at he
      exact absurd he (by simp)
    · have hc2 : 0 ≤ i + (c.readings.length : ℤ) ∧ i < 0 := by omega
      rw [dif_neg hc, dif_pos hc2] at he
      exact absurd he (by simp)
  · intro hor
    unfold CylinderReadings.getitem
    have hc : ¬(0 ≤ i ∧ i < (c.readings.length : ℤ)) := by omega
    have hc2 : ¬(0 ≤ i + (c.readings.length : ℤ) ∧ i < 0) := by omega
    rw [dif_neg hc, dif_neg hc2]
  · intro h0 hlt r hr
    have hc : 0 ≤ i ∧ i < (c.readings.length : ℤ) := ⟨h0, hlt⟩
    unfold CylinderReadings.getitem
    rw [dif_pos hc]
    have hb : i.toNat < c.readings.length := by omega
    rw [List.getElem?_eq_getElem hb] at hr
    simp only [List.get_eq_getElem]
    exact congrArg Except.ok (Option.some.inj hr)
  · intro hge hneg r hr
    have hc : ¬(0 ≤ i ∧ i < (c.readings.length : ℤ)) := by omega
    have hc2 : 0 ≤ i + (c.readings.length : ℤ) ∧ i < 0 := by omega
    unfold CylinderReadings.getitem
    rw [dif_neg hc, dif_pos hc2]
    have hb : (i + (c.readings.length : ℤ)).toNat < c.readings.length := by omega
    rw [List.getElem?_eq_getElem hb] at hr
    simp only [List.get_eq_getElem]
    exact congrArg Except.ok (Option.some.inj hr)

/-- C2 counterexample: on a one-element collection the negative index -1 is
inside Python's accepted range, so indexing returns the stored element
instead of failing with IndexError as the claim requires for every negative
index. -/
theorem getitem_neg_index_counterexample :
    (CylinderReadings.mk [⟨1, .int 5⟩]).getitem (-1) = .ok ⟨1, .int 5⟩ ∧
    (CylinderReadings.mk [⟨1, .int 5⟩]).getitem (-1) ≠ .error .indexError :=
  ⟨rfl, fun h => Except.noConfusion h⟩

/-- C2 witness: a concrete in-range index returns the stored element, a
concrete out-of-range index fails with IndexError. -/
theorem getitem_spec_witness :
    (CylinderReadings.mk [⟨1, .int 5⟩, ⟨2, .int 7⟩]).getitem 1 = .ok ⟨2, .int 7⟩ ∧
    (CylinderReadings.mk [⟨1, .int 5⟩, ⟨2, .int 7⟩]).getitem 2
      = .error .indexError := by
  constructor
  · exact (getitem_spec ⟨[⟨1, .int 5⟩, ⟨2, .int 7⟩]⟩ 1).2.1 (by decide) (by decide)
      ⟨2, .int 7⟩ (by decide)
  · exact (getitem_spec ⟨[⟨1, .int 5⟩, ⟨2, .int 7⟩]⟩ 2).1.mpr (by decide)

/-- C3 (amended): for a valid cylinder number, construction fails with
NonNumericValue exactly when the supplied value is not a Python number —
e.g. text or None; on any int, bool or float value construction succeeds
and stores it unchanged, finite or not: the source checks only
isinstance(value, (int, float)), so inf and nan are accepted. -/
theorem value_check_spec (n : ℤ) (v : PyValue) (hn : 1 ≤ n) :
    (mkCylinderReading n v = .error .nonNumericValue ↔ isNumeric v = false) ∧
    (isNumeric v = true → mkCylinderReading n v = .ok ⟨n, v⟩) := by
  have hn' : ¬ n < 1 := by omega
  refine ⟨⟨?_, ?_⟩, ?_⟩
  · intro he
    by_cases hv : isNumeric v = true
    · simp [mkCylinderReading, hn', hv] at he
    · simpa using hv
  · intro hv
    simp [mkCylinderReading, hn', hv]
  · intro hv
    simp [mkCylinderReading, hn', hv]

/-- C3 counterexample: the non-finite floats inf and nan pass the
isinstance check, so construction succeeds and the stored value is not
finite — refuting that every successfully constructed reading has a finite
value. -/
theorem nonfinite_value_accepted_counterexample :
    mkCylinderReading 4 (.float .inf) = .ok ⟨4, .float .inf⟩ ∧
    mkCylinderReading 4 (.float .nan) = .ok ⟨4, .float .nan⟩ ∧
    isFiniteNum (.float .inf) = false ∧
    isFiniteNum (.float .nan) = false :=
  ⟨rfl, rfl, rfl, rfl⟩

/-- C3 witness: text is rejected with NonNumericValue and a numeric value
is stored unchanged, at concrete inputs. -/
theorem value_check_spec_witness :
    mkCylinderReading 1 (.str "1200") = .error .nonNumericValue ∧
    mkCylinderReading 1 (.float (.fin 1200)) = .ok ⟨1, .float (.fin 1200)⟩ := by
  constructor
  · exact (value_check_spec 1 (.str "1200") (by decide)).1.mpr (by decide)
  · exact (value_check_spec 1 (.float (.fin 1200)) (by decide)).2 (by decide)

/-- C6: for any numeric value (zero and negative included), construction
fails with InvalidCylinderNumber exactly when the cylinder number is less
than 1; for number >= 1 it succeeds and the reading stores number and value
exactly as supplied. -/
theorem cylinder_number_spec (n : ℤ) (v : PyValue) (hv : isNumeric v = true) :
    (mkCylinderReading n v = .error .invalidCylinderNumber ↔ n < 1) ∧
    (1 ≤ n → mkCylinderReading n v = .ok ⟨n, v⟩) := by
  refine ⟨⟨?_, ?_⟩, ?_⟩
  · intro he
    by_cases hn : n < 1
    · exact hn
    · simp [mkCylinderReading, hn, hv] at he
  · intro hn
    simp [mkCylinderReading, hn]
  · intro hn
    have hn' : ¬ n < 1 := by omega
    simp [mkCylinderReading, hn', hv]

/-- C6 witness: cylinder number 0 is rejected with InvalidCylinderNumber
and cylinder number 3 with a negative value round-trips exactly. -/
theorem cylinder_number_spec_witness :
    mkCylinderReading 0 (.float (.fin 1200)) = .error .invalidCylinderNumber ∧
    mkCylinderReading 3 (.int (-2)) = .ok ⟨3, .int (-2)⟩ := by
  constructor
  · exact (cylinder_number_spec 0 (.float (.fin 1200)) (by decide)).1.mpr (by decide)
  · exact (cylinder_number_spec 3 (.int (-2)) (by decide)).2 (by decide)

/-- C9: when both validation rules are violated at once (number < 1 and a
non-numeric value), the cylinder-number check runs first, so the reported
failure is InvalidCylinderNumber. -/
theorem number_check_first_spec (n : ℤ) (v : PyValue) (hn : n < 1)
    (hv : isNumeric v = false) :
    mkCylinderReading n v = .error .invalidCylinderNumber := by
  simp [mkCylinderReading, hn]

/-- C9 witness: number 0 with a text value fails with
InvalidCylinderNumber, not NonNumericValue. -/
theorem number_check_first_spec_witness :
    mkCylinderReading 0 (.str "hot") = .error .invalidCylinderNumber :=
  number_check_first_spec 0 (.str "hot") (by decide) (by decide)

/-- C10: booleans pass the isinstance (int, float) check because bool is a
subclass of int in Python, so for every cylinder number >= 1 a boolean
value constructs successfully and is stored as the reading's value. -/
theorem bool_value_accepted_spec (n : ℤ) (b : Bool) (hn : 1 ≤ n) :
    mkCylinderReading n (.bool b) = .ok ⟨n, .bool b⟩ := by
  have hn' : ¬ n < 1 := by omega
  simp [mkCylinderReading, hn', isNumeric]

/-- C10 witness: True is accepted and stored for cylinder 1. -/
theorem bool_value_accepted_spec_witness :
    mkCylinderReading 1 (.bool true) = .ok ⟨1, .bool true⟩ :=
  bool_value_accepted_spec 1 true (by decide)

/-- C7: EngineData constructed with no arguments has every scalar channel
absent (None) and both cylinder collections empty, of length 0. -/
theorem engineData_default_spec :
    EngineData.pyDefault.rpm = Option.none ∧
    EngineData.pyDefault.manifold_pressure = Option.none ∧
    EngineData.pyDefault.oil_pressure = Option.none ∧
    EngineData.pyDefault.oil_temperature = Option.none ∧
    EngineData.pyDefault.fuel_pressure = Option.none ∧
    EngineData.pyDefault.volts = Option.none ∧
    EngineData.pyDefault.amps = Option.none ∧
    EngineData.pyDefault.g_force = Option.none ∧
    EngineData.pyDefault.egts.length = 0 ∧
    EngineData.pyDefault.chts.length = 0 :=
  ⟨rfl, rfl, rfl, rfl, rfl, rfl, rfl, rfl, rfl, rfl⟩

/-- C8: every explicitly supplied scalar value — zero and negative values
included — is stored and read back exactly as given, and a supplied value
is never the absent state: presence is the explicit some, absence only the
explicit Option.none, with no sentinel number. -/
theorem engineData_roundtrip_spec (r mp op ot fp vo am gf : PyFloat)
    (eg ch : CylinderReadings) :
    (EngineData.mk (some r) (some mp) eg ch (some op) (some ot) (some fp)
        (some vo) (some am) (some gf)).rpm = some r ∧
    (EngineData.mk (some r) (some mp) eg ch (some op) (some ot) (some fp)
        (some vo) (some am) (some gf)).manifold_pressure = some mp ∧
    (EngineData.mk (some r) (some mp) eg ch (some op) (some ot) (some fp)
        (some vo) (some am) (some gf)).egts = eg ∧
    (EngineData.mk (some r) (some mp) eg ch (some op) (some ot) (some fp)
        (some vo) (some am) (some gf)).chts = ch ∧
    (EngineData.mk (some r) (some mp) eg ch (some op) (some ot) (some fp)
        (some vo) (some am) (some gf)).oil_pressure = some op ∧
    (EngineData.mk (some r) (some mp) eg ch (some op) (some ot) (some fp)
        (some vo) (some am) (some gf)).oil_temperature = some ot ∧
    (EngineData.mk (some r) (some mp) eg ch (some op) (some ot) (some fp)
        (some vo) (some am) (some gf)).fuel_pressure = some fp ∧
    (EngineData.mk (some r) (some mp) eg ch (some op) (some ot) (some fp)
        (some vo) (some am) (some gf)).volts = some vo ∧
    (EngineData.mk (some r) (some mp) eg ch (some op) (some ot) (some fp)
        (some vo) (some am) (some gf)).amps = some am ∧
    (EngineData.mk (some r) (some mp) eg ch (some op) (some ot) (some fp)
        (some vo) (some am) (some gf)).g_force = some gf ∧
    (EngineData.mk (some r) (some mp) eg ch (some op) (some ot) (some fp)
        (some vo) (some am) (some gf)).rpm ≠ Option.none ∧
    (EngineData.mk (some r) (some mp) eg ch (some op) (some ot) (some fp)
        (some vo) (some am) (some gf)).volts ≠ Option.none ∧
    (EngineData.mk (some r) (some mp) eg ch (some op) (some ot) (some fp)
        (some vo) (some am) (some gf)).g_force ≠ Option.none :=
  ⟨rfl, rfl, rfl, rfl, rfl, rfl, rfl, rfl, rfl, rfl,
    Option.noConfusion, Option.noConfusion, Option.noConfusion⟩
